import Mathlib

/-!
Verification of the stepper-motor subsystem (`src/stepper.c`) of horus-fw.

The C module is embedded shallowly: the module's global variables become the
fields of `SState`, each C function becomes a Lean function on `SState`, and
machine integers become `Nat` with explicit `% 2 ^ 32` (uint32) or `% 256`
(uint8) where overflow or truncation matters.  The two interrupt handlers
become state-transition functions; the cadence handler additionally reports
the byte it popped, which the C code consumes implicitly through the port
writes.  A busy-wait in the C source (`while (cond) sleep_mode();`) suspends
the caller without touching any state, so a single blocked attempt is
embedded as the identity on the state.
-/

/-- STEP_BUFFER_SIZE from stepper.c line 35. -/
def STEP_BUFFER_SIZE : Nat := 100

/-- PACE_CHANGE_MARKER (0xff) from stepper.c line 38: the in-band byte that
marks a pace change in the step buffer. -/
def PACE_CHANGE_MARKER : Nat := 0xff

/-- Modelled from the spec: `TICKS_PER_MICROSECOND` is `F_CPU/1000000` and
`F_CPU` lives in config.h, which is not part of the sources; the spec (§8)
fixes ticksPerMicrosecond = 16 (a 16 MHz clock). -/
def TICKS_PER_MICROSECOND : Nat := 16

/-- Modelled from the spec: the mode enumeration {Stopped, Running} is
declared in stepper.h, which is not part of the sources.  Stopped state. -/
def STEPPER_MODE_STOPPED : Nat := 0

/-- Modelled from the spec: Running state of the mode enumeration. -/
def STEPPER_MODE_RUNNING : Nat := 1

/-- Modelled from the spec: CS10 is the position of the least clock-select
bit of TCCR1B in the AVR header (bit 0). -/
def CS10 : Nat := 0

/-- Modelled from the spec: the per-machine configuration constants of
config.h are not part of the sources.  The spec describes one step bit and
one direction bit per axis, one limit bit per axis, an invert mask for the
stepping port, the step pulse width, and steps-per-millimeter scale factors
(the latter exact rationals standing for the C doubles). -/
structure Cfg where
  x_step_bit : Nat
  y_step_bit : Nat
  z_step_bit : Nat
  x_direction_bit : Nat
  y_direction_bit : Nat
  z_direction_bit : Nat
  x_limit_bit : Nat
  y_limit_bit : Nat
  z_limit_bit : Nat
  stepping_invert_mask : Nat
  step_pulse_microseconds : Nat
  x_steps_per_mm : ℚ
  y_steps_per_mm : ℚ
  z_steps_per_mm : ℚ
deriving Repr

/-- STEP_MASK: the union of the three per-axis step bits (config.h). -/
def STEP_MASK (c : Cfg) : Nat :=
  (1 <<< c.x_step_bit) ||| (1 <<< c.y_step_bit) ||| (1 <<< c.z_step_bit)

/-- DIRECTION_MASK: the union of the three per-axis direction bits. -/
def DIRECTION_MASK (c : Cfg) : Nat :=
  (1 <<< c.x_direction_bit) ||| (1 <<< c.y_direction_bit) ||| (1 <<< c.z_direction_bit)

/-- Modelled from the spec: axis identifiers live in nuts_bolts.h, which is
not part of the sources; only their distinctness matters to stepper.c. -/
def X_AXIS : Int := 0

/-- Modelled from the spec: the Y axis identifier. -/
def Y_AXIS : Int := 1

/-- Modelled from the spec: the Z axis identifier. -/
def Z_AXIS : Int := 2

/-- The state of the stepper module: its global variables (stepper.c lines
40-46) together with the hardware registers it writes.  Buffer cells are
uint8 values, kept as a length-100 list. -/
structure SState where
  step_buffer : List Nat
  step_buffer_head : Nat
  step_buffer_tail : Nat
  current_pace : Nat
  next_pace : Nat
  stepper_mode : Nat
  stepping_port : Nat
  portd : Nat
  tccr1b : Nat
  ocr1a : Nat
  tcnt2 : Nat
deriving Repr, DecidableEq

/-- The branch cascade of config_pace_timer (stepper.c lines 205-224):
from a tick count, the chosen (prescaler index, ceiling) pair.  The shifts
are the C `>>` on uint32; every ceiling produced fits in 16 bits. -/
def pace_timer_params (ticks : Nat) : Nat × Nat :=
  if ticks ≤ 0xffff then (0, ticks)
  else if ticks ≤ 0x7ffff then (1, ticks >>> 3)
  else if ticks ≤ 0x3fffff then (2, ticks >>> 6)
  else if ticks ≤ 0xffffff then (3, ticks >>> 8)
  else if ticks ≤ 0x3ffffff then (4, ticks >>> 10)
  else (4, 0xffff)

/-- The division factor of timer 1 selected by a prescaler index
(comments at stepper.c lines 207-219: 0 ↦ /1, 1 ↦ /8, 2 ↦ /64,
3 ↦ /256, 4 ↦ /1024). -/
def prescale_factor : Nat → Nat
  | 0 => 1
  | 1 => 8
  | 2 => 64
  | 3 => 256
  | 4 => 1024
  | _ + 5 => 0

/-- config_pace_timer (stepper.c lines 200-230).  `ticks` is the uint32
product `microseconds*TICKS_PER_MICROSECOND`; the chosen prescaler index
goes into the CS bits of TCCR1B, the ceiling into OCR1A, and the requested
interval (as a uint32) is recorded in current_pace unconditionally. -/
def config_pace_timer (microseconds : Nat) (s : SState) : SState :=
  let ticks := microseconds * TICKS_PER_MICROSECOND % 2 ^ 32
  let pc := pace_timer_params ticks
  { s with
    tccr1b := (s.tccr1b &&& (255 ^^^ (7 <<< CS10))) ||| ((pc.1 + 1) <<< CS10)
    ocr1a := pc.2
    current_pace := microseconds % 2 ^ 32 }

/-- SIG_OUTPUT_COMPARE1A (stepper.c lines 53-76), the cadence interrupt.
If the buffer is nonempty it clears PORTD bit 3, pops the byte at the tail,
either reconfigures the pace timer from next_pace (marker) or drives the
stepping port and arms timer 2 (step), and advances the tail; otherwise it
sets PORTD bit 3.  The popped byte is returned alongside the new state. -/
def SIG_OUTPUT_COMPARE1A (c : Cfg) (s : SState) : SState × Option Nat :=
  if s.step_buffer_head ≠ s.step_buffer_tail then
    let s0 := { s with portd := s.portd &&& (255 ^^^ (1 <<< 3)) }
    let popped := s0.step_buffer.getD s0.step_buffer_tail 0
    let s1 :=
      if popped = PACE_CHANGE_MARKER then
        let s2 := config_pace_timer s0.next_pace s0
        { s2 with next_pace := 0 }
      else
        let p := popped ^^^ (c.stepping_invert_mask % 256)
        let port1 := (s0.stepping_port &&& (255 ^^^ DIRECTION_MASK c)) |||
          (p &&& DIRECTION_MASK c)
        let port2 := (port1 &&& (255 ^^^ STEP_MASK c)) ||| p
        { s0 with
          stepping_port := port2
          tcnt2 :=
            (256 - (c.step_pulse_microseconds - 4) * TICKS_PER_MICROSECOND / 8 % 256) % 256 }
    ({ s1 with step_buffer_tail := (s1.step_buffer_tail + 1) % STEP_BUFFER_SIZE },
      some popped)
  else
    ({ s with portd := s.portd ||| (1 <<< 3) }, none)

/-- SIG_OVERFLOW2 (stepper.c lines 80-84), the pulse-reset interrupt: the
new value of the stepping port: step bits return to the invert-mask level,
every other bit keeps its value. -/
def SIG_OVERFLOW2 (c : Cfg) (port : Nat) : Nat :=
  (port &&& (255 ^^^ STEP_MASK c)) ||| ((c.stepping_invert_mask % 256) &&& STEP_MASK c)

/-- st_buffer_step (stepper.c lines 116-128).  No-op unless Running; when
the buffer is full the C code sleeps until the executor frees a slot, so a
blocked attempt leaves the state unchanged; otherwise the uint8 argument is
stored at the head and the head advances. -/
def st_buffer_step (s : SState) (motor_port_bits : Nat) : SState :=
  if s.stepper_mode ≠ STEPPER_MODE_RUNNING then s
  else
    let next_buffer_head := (s.step_buffer_head + 1) % STEP_BUFFER_SIZE
    if s.step_buffer_tail = next_buffer_head then s
    else
      { s with
        step_buffer := s.step_buffer.set s.step_buffer_head (motor_port_bits % 256)
        step_buffer_head := next_buffer_head }

/-- st_buffer_pace (stepper.c lines 176-187).  No-op if the pace is
unchanged or the subsystem is not Running; while next_pace is occupied the
C code sleeps, so a blocked attempt leaves the state unchanged; otherwise
the uint32 pace is stored in next_pace and one marker byte is enqueued. -/
def st_buffer_pace (s : SState) (microseconds : Nat) : SState :=
  let m := microseconds % 2 ^ 32
  if s.current_pace = m ∨ s.stepper_mode ≠ STEPPER_MODE_RUNNING then s
  else if s.next_pace ≠ 0 then s
  else st_buffer_step { s with next_pace := m } PACE_CHANGE_MARKER

/-- st_bit_for_stepper (stepper.c lines 190-197): the stepper bitmask for
an axis, 0 for an unknown axis. -/
def st_bit_for_stepper (c : Cfg) (axis : Int) : Nat :=
  if axis = X_AXIS then 1 <<< c.x_step_bit
  else if axis = Y_AXIS then 1 <<< c.y_step_bit
  else if axis = Z_AXIS then 1 <<< c.z_step_bit
  else 0

/-- check_limit_switch (stepper.c lines 238-247): mask selected by axis
(0 for an unknown axis), then the port is read twice and the reads are
combined with C logical or, yielding the int 0 or 1. -/
def check_limit_switch (c : Cfg) (limit_port : Nat) (axis : Int) : Nat :=
  let mask :=
    if axis = X_AXIS then 1 <<< c.x_limit_bit
    else if axis = Y_AXIS then 1 <<< c.y_limit_bit
    else if axis = Z_AXIS then 1 <<< c.z_limit_bit
    else 0
  if limit_port &&& mask ≠ 0 ∨ limit_port &&& mask ≠ 0 then 1 else 0

/-- The C library round(): round to nearest, ties away from zero. -/
def cround (x : ℚ) : ℤ :=
  if 0 ≤ x then round x else -round (-x)

/-- st_millimeters_to_steps (stepper.c lines 255-262), with the C doubles
embedded as exact rationals: distance times the axis scale, rounded; 0 for
an unknown axis. -/
def st_millimeters_to_steps (c : Cfg) (millimeters : ℚ) (axis : Int) : Int :=
  if axis = X_AXIS then cround (millimeters * c.x_steps_per_mm)
  else if axis = Y_AXIS then cround (millimeters * c.y_steps_per_mm)
  else if axis = Z_AXIS then cround (millimeters * c.z_steps_per_mm)
  else 0

/-- Number of instructions resident in the ring buffer, derived from the
head and tail indices. -/
def bufCount (s : SState) : Nat :=
  (s.step_buffer_head + STEP_BUFFER_SIZE - s.step_buffer_tail) % STEP_BUFFER_SIZE

/-- The buffer is empty: nothing resident. -/
def isEmpty (s : SState) : Prop := bufCount s = 0

/-- The buffer is full: the maximum of N-1 instructions resident. -/
def isFull (s : SState) : Prop := bufCount s = STEP_BUFFER_SIZE - 1

instance (s : SState) : Decidable (isEmpty s) := by unfold isEmpty; infer_instance

instance (s : SState) : Decidable (isFull s) := by unfold isFull; infer_instance

/-- The resident instructions in consumption order: the bytes at positions
tail, tail+1, ..., head-1 (mod N). -/
def queueOf (s : SState) : List Nat :=
  (List.range (bufCount s)).map
    (fun i => s.step_buffer.getD ((s.step_buffer_tail + i) % STEP_BUFFER_SIZE) 0)

/-- Well-formedness of a module state: the buffer has its declared size,
the indices are in range, and next_pace holds a uint32 value. -/
def WF (s : SState) : Prop :=
  s.step_buffer.length = STEP_BUFFER_SIZE ∧
  s.step_buffer_head < STEP_BUFFER_SIZE ∧
  s.step_buffer_tail < STEP_BUFFER_SIZE ∧
  s.next_pace < 2 ^ 32

instance (s : SState) : Decidable (WF s) := by unfold WF; infer_instance

/-- Iterated cadence interrupts: `isr_run c n s` runs the handler n times
and logs, oldest first, each executed step instruction together with the
pace that was current when it was executed (markers execute no step and
are not logged). -/
def isr_run (c : Cfg) : Nat → SState → SState × List (Nat × Nat)
  | 0, s => (s, [])
  | k + 1, s =>
    let t := SIG_OUTPUT_COMPARE1A c s
    let r := isr_run c k t.1
    match t.2 with
    | some b => if b = PACE_CHANGE_MARKER then r else (r.1, (b, s.current_pace) :: r.2)
    | none => r

/-- The initial module state: the C globals are zero-initialized static
storage (mode Stopped), and the hardware registers are taken as zero. -/
def init_state : SState :=
  { step_buffer := List.replicate STEP_BUFFER_SIZE 0
    step_buffer_head := 0
    step_buffer_tail := 0
    current_pace := 0
    next_pace := 0
    stepper_mode := STEPPER_MODE_STOPPED
    stepping_port := 0
    portd := 0
    tccr1b := 0
    ocr1a := 0
    tcnt2 := 0 }

/-- Spec wording of §4.1 for claim C2: p is the smallest prescaler of the
ordered set {1, 8, 64, 256, 1024} that brings the tick count within the
16-bit counter range. -/
def smallest_prescaler (ticks p : Nat) : Prop :=
  p ∈ [1, 8, 64, 256, 1024] ∧ ticks / p ≤ 65535 ∧
    ∀ q ∈ [1, 8, 64, 256, 1024], q < p → 65535 < ticks / q

instance (ticks p : Nat) : Decidable (smallest_prescaler ticks p) := by
  unfold smallest_prescaler; infer_instance

lemma bufCount_lt (s : SState) : bufCount s < STEP_BUFFER_SIZE := by
  unfold bufCount STEP_BUFFER_SIZE; omega

lemma tick_step_buffer (c : Cfg) (s : SState)
    (hne : s.step_buffer_head ≠ s.step_buffer_tail) :
    (SIG_OUTPUT_COMPARE1A c s).1.step_buffer = s.step_buffer := by
  simp only [SIG_OUTPUT_COMPARE1A, if_pos hne]
  split <;> rfl

lemma tick_head (c : Cfg) (s : SState)
    (hne : s.step_buffer_head ≠ s.step_buffer_tail) :
    (SIG_OUTPUT_COMPARE1A c s).1.step_buffer_head = s.step_buffer_head := by
  simp only [SIG_OUTPUT_COMPARE1A, if_pos hne]
  split <;> rfl

lemma tick_tail (c : Cfg) (s : SState)
    (hne : s.step_buffer_head ≠ s.step_buffer_tail) :
    (SIG_OUTPUT_COMPARE1A c s).1.step_buffer_tail =
      (s.step_buffer_tail + 1) % STEP_BUFFER_SIZE := by
  simp only [SIG_OUTPUT_COMPARE1A, if_pos hne]
  split <;> rfl

lemma tick_mode (c : Cfg) (s : SState)
    (hne : s.step_buffer_head ≠ s.step_buffer_tail) :
    (SIG_OUTPUT_COMPARE1A c s).1.stepper_mode = s.stepper_mode := by
  simp only [SIG_OUTPUT_COMPARE1A, if_pos hne]
  split <;> rfl

lemma tick_obs (c : Cfg) (s : SState)
    (hne : s.step_buffer_head ≠ s.step_buffer_tail) :
    (SIG_OUTPUT_COMPARE1A c s).2 = some (s.step_buffer.getD s.step_buffer_tail 0) := by
  simp only [SIG_OUTPUT_COMPARE1A, if_pos hne]

lemma tick_pace_of_step (c : Cfg) (s : SState)
    (hne : s.step_buffer_head ≠ s.step_buffer_tail)
    (hm : s.step_buffer.getD s.step_buffer_tail 0 ≠ PACE_CHANGE_MARKER) :
    (SIG_OUTPUT_COMPARE1A c s).1.current_pace = s.current_pace ∧
      (SIG_OUTPUT_COMPARE1A c s).1.next_pace = s.next_pace := by
  rw [List.getD_eq_getElem?_getD] at hm
  simp [SIG_OUTPUT_COMPARE1A, if_pos hne, if_neg hm]

lemma tick_pace_of_marker (c : Cfg) (s : SState)
    (hne : s.step_buffer_head ≠ s.step_buffer_tail)
    (hm : s.step_buffer.getD s.step_buffer_tail 0 = PACE_CHANGE_MARKER) :
    (SIG_OUTPUT_COMPARE1A c s).1.current_pace = s.next_pace % 2 ^ 32 ∧
      (SIG_OUTPUT_COMPARE1A c s).1.next_pace = 0 := by
  rw [List.getD_eq_getElem?_getD] at hm
  simp [SIG_OUTPUT_COMPARE1A, if_pos hne, if_pos hm, config_pace_timer]

lemma tick_WF (c : Cfg) (s : SState) (hwf : WF s)
    (hne : s.step_buffer_head ≠ s.step_buffer_tail) :
    WF (SIG_OUTPUT_COMPARE1A c s).1 := by
  obtain ⟨h1, h2, h3, h4⟩ := hwf
  refine ⟨?_, ?_, ?_, ?_⟩
  · rw [tick_step_buffer c s hne]; exact h1
  · rw [tick_head c s hne]; exact h2
  · rw [tick_tail c s hne]; unfold STEP_BUFFER_SIZE; omega
  · by_cases hm : s.step_buffer.getD s.step_buffer_tail 0 = PACE_CHANGE_MARKER
    · rw [(tick_pace_of_marker c s hne hm).2]; positivity
    · rw [(tick_pace_of_step c s hne hm).2]; exact h4

lemma bufCount_tick (c : Cfg) (s : SState) (hwf : WF s)
    (hne : s.step_buffer_head ≠ s.step_buffer_tail) :
    bufCount (SIG_OUTPUT_COMPARE1A c s).1 = bufCount s - 1 := by
  obtain ⟨h1, h2, h3, h4⟩ := hwf
  unfold bufCount
  rw [tick_head c s hne, tick_tail c s hne]
  unfold STEP_BUFFER_SIZE at *
  omega

lemma queueOf_tick (c : Cfg) (s : SState) (hwf : WF s)
    (hne : s.step_buffer_head ≠ s.step_buffer_tail) :
    queueOf (SIG_OUTPUT_COMPARE1A c s).1 = (queueOf s).drop 1 := by
  have h2 := hwf.2.1
  have h3 := hwf.2.2.1
  have hcnt : bufCount s ≠ 0 := by unfold bufCount STEP_BUFFER_SIZE at *; omega
  obtain ⟨m, hm⟩ : ∃ m, bufCount s = m + 1 := ⟨bufCount s - 1, by omega⟩
  unfold queueOf
  rw [tick_step_buffer c s hne, bufCount_tick c s ⟨hwf.1, h2, h3, hwf.2.2.2⟩ hne, hm]
  simp only [tick_tail c s hne, Nat.add_sub_cancel, List.range_succ_eq_map, List.map_cons,
    List.drop_succ_cons, List.drop_zero, List.map_map]
  refine List.map_congr_left ?_
  intro i _
  simp only [Function.comp_apply, Nat.succ_eq_add_one]
  congr 1
  unfold STEP_BUFFER_SIZE at *
  omega

lemma queueOf_length (s : SState) : (queueOf s).length = bufCount s := by
  unfold queueOf
  rw [List.length_map, List.length_range]

lemma queue_head_eq (s : SState) (b : Nat) (rest : List Nat) (hwf : WF s)
    (hq : queueOf s = b :: rest) :
    s.step_buffer.getD s.step_buffer_tail 0 = b ∧
      s.step_buffer_head ≠ s.step_buffer_tail := by
  have h3 := hwf.2.2.1
  have hcnt : bufCount s ≠ 0 := by
    intro h0
    rw [queueOf, h0] at hq
    simp at hq
  obtain ⟨m, hm⟩ : ∃ m, bufCount s = m + 1 := ⟨bufCount s - 1, by omega⟩
  constructor
  · rw [queueOf, hm, List.range_succ_eq_map, List.map_cons] at hq
    have := (List.cons.injEq _ _ _ _).mp hq
    have ht : (s.step_buffer_tail + 0) % STEP_BUFFER_SIZE = s.step_buffer_tail := by
      unfold STEP_BUFFER_SIZE at *; omega
    rw [← this.1, ht]
  · unfold bufCount STEP_BUFFER_SIZE at *
    omega

lemma st_buffer_step_pace_fields (s : SState) (b : Nat) :
    (st_buffer_step s b).current_pace = s.current_pace ∧
      (st_buffer_step s b).next_pace = s.next_pace ∧
      (st_buffer_step s b).stepper_mode = s.stepper_mode := by
  simp only [st_buffer_step]
  split
  · exact ⟨rfl, rfl, rfl⟩
  · split
    · exact ⟨rfl, rfl, rfl⟩
    · exact ⟨rfl, rfl, rfl⟩

lemma st_buffer_step_of_full (s : SState) (b : Nat) (hwf : WF s)
    (hfull : bufCount s = STEP_BUFFER_SIZE - 1) :
    st_buffer_step s b = s := by
  have h2 := hwf.2.1
  have h3 := hwf.2.2.1
  unfold st_buffer_step
  split
  · rfl
  · rw [if_pos ?_]
    unfold bufCount STEP_BUFFER_SIZE at *
    omega

lemma st_buffer_step_push (s : SState) (b : Nat) (hwf : WF s)
    (hrun : s.stepper_mode = STEPPER_MODE_RUNNING)
    (hnf : bufCount s ≠ STEP_BUFFER_SIZE - 1) :
    queueOf (st_buffer_step s b) = queueOf s ++ [b % 256] ∧
      WF (st_buffer_step s b) ∧
      bufCount (st_buffer_step s b) = bufCount s + 1 := by
  obtain ⟨h1, h2, h3, h4⟩ := hwf
  have hcond : ¬ s.step_buffer_tail = (s.step_buffer_head + 1) % STEP_BUFFER_SIZE := by
    unfold bufCount STEP_BUFFER_SIZE at *
    omega
  have hstep : st_buffer_step s b =
      { s with
        step_buffer := s.step_buffer.set s.step_buffer_head (b % 256)
        step_buffer_head := (s.step_buffer_head + 1) % STEP_BUFFER_SIZE } := by
    unfold st_buffer_step
    rw [if_neg (by simp [hrun]), if_neg hcond]
  have hcnt : bufCount (st_buffer_step s b) = bufCount s + 1 := by
    rw [hstep]
    unfold bufCount STEP_BUFFER_SIZE at *
    simp only
    omega
  refine ⟨?_, ?_, hcnt⟩
  · unfold queueOf
    rw [hcnt, hstep, List.range_succ, List.map_append]
    simp only [List.map_cons, List.map_nil]
    congr 1
    · refine List.map_congr_left ?_
      intro i hi
      rw [List.mem_range] at hi
      have hidx : (s.step_buffer_tail + i) % STEP_BUFFER_SIZE ≠ s.step_buffer_head := by
        unfold bufCount STEP_BUFFER_SIZE at *
        omega
      rw [List.getD_eq_getElem?_getD, List.getD_eq_getElem?_getD,
        List.getElem?_set_ne (fun h => hidx h.symm)]
    · have hidx : (s.step_buffer_tail + bufCount s) % STEP_BUFFER_SIZE =
          s.step_buffer_head := by
        unfold bufCount STEP_BUFFER_SIZE at *
        omega
      rw [hidx, List.getD_eq_getElem?_getD, List.getElem?_set_self (by omega)]
      rfl
  · rw [hstep]
    refine ⟨?_, ?_, h3, h4⟩
    · simp only [List.length_set]
      exact h1
    · unfold STEP_BUFFER_SIZE
      simp only
      omega

lemma st_buffer_pace_busy (s : SState) (microseconds : Nat)
    (hbusy : s.next_pace ≠ 0) :
    st_buffer_pace s microseconds = s := by
  simp only [st_buffer_pace]
  split
  · rfl
  · simp [hbusy]

lemma st_buffer_pace_push (s : SState) (microseconds : Nat) (hwf : WF s)
    (hrun : s.stepper_mode = STEPPER_MODE_RUNNING)
    (hne : s.current_pace ≠ microseconds % 2 ^ 32)
    (hfree : s.next_pace = 0)
    (hnf : bufCount s ≠ STEP_BUFFER_SIZE - 1) :
    queueOf (st_buffer_pace s microseconds) = queueOf s ++ [PACE_CHANGE_MARKER] ∧
      (st_buffer_pace s microseconds).next_pace = microseconds % 2 ^ 32 := by
  have hc1 : ¬ (s.current_pace = microseconds % 2 ^ 32 ∨
      s.stepper_mode ≠ STEPPER_MODE_RUNNING) := by
    push_neg
    exact ⟨hne, hrun⟩
  have hc2 : ¬ s.next_pace ≠ 0 := by simp [hfree]
  have hpace : st_buffer_pace s microseconds =
      st_buffer_step { s with next_pace := microseconds % 2 ^ 32 } PACE_CHANGE_MARKER := by
    simp only [st_buffer_pace]
    rw [if_neg hc1, if_neg hc2]
  have hwf' : WF { s with next_pace := microseconds % 2 ^ 32 } := by
    refine ⟨hwf.1, hwf.2.1, hwf.2.2.1, ?_⟩
    simp only
    omega
  have hq := st_buffer_step_push { s with next_pace := microseconds % 2 ^ 32 }
    PACE_CHANGE_MARKER hwf' hrun hnf
  constructor
  · rw [hpace, hq.1]
    rfl
  · rw [hpace, (st_buffer_step_pace_fields _ _).2.1]

lemma isr_run_succ (c : Cfg) (k : Nat) (s : SState) :
    isr_run c (k + 1) s =
      let t := SIG_OUTPUT_COMPARE1A c s
      let r := isr_run c k t.1
      match t.2 with
      | some b => if b = PACE_CHANGE_MARKER then r else (r.1, (b, s.current_pace) :: r.2)
      | none => r := rfl

lemma isr_run_no_marker (c : Cfg) (post : List Nat) :
    ∀ s : SState, WF s → queueOf s = post → PACE_CHANGE_MARKER ∉ post →
      (isr_run c post.length s).2 = post.map (fun x => (x, s.current_pace)) := by
  induction post with
  | nil =>
    intro s _ _ _
    rfl
  | cons b rest ih =>
    intro s hwf hq hnm
    obtain ⟨hb, hne⟩ := queue_head_eq s b rest hwf hq
    have hbm : b ≠ PACE_CHANGE_MARKER := fun h => hnm (h ▸ List.mem_cons_self b rest)
    have hgm : s.step_buffer.getD s.step_buffer_tail 0 ≠ PACE_CHANGE_MARKER := by
      rw [hb]; exact hbm
    have hq' : queueOf (SIG_OUTPUT_COMPARE1A c s).1 = rest := by
      rw [queueOf_tick c s hwf hne, hq, List.drop_one, List.tail_cons]
    have hwf' := tick_WF c s hwf hne
    have hpace := tick_pace_of_step c s hne hgm
    have hrec := ih (SIG_OUTPUT_COMPARE1A c s).1 hwf' hq'
      (fun h => hnm (List.mem_cons_of_mem b h))
    rw [List.length_cons, isr_run_succ]
    simp only [tick_obs c s hne, hb, if_neg hbm]
    rw [List.map_cons, hrec, hpace.1]

lemma isr_run_scenario (c : Cfg) (pre : List Nat) :
    ∀ (post : List Nat) (s : SState), WF s →
      queueOf s = pre ++ PACE_CHANGE_MARKER :: post →
      PACE_CHANGE_MARKER ∉ pre → PACE_CHANGE_MARKER ∉ post →
      (isr_run c (pre.length + 1 + post.length) s).2 =
        pre.map (fun x => (x, s.current_pace)) ++ post.map (fun x => (x, s.next_pace)) := by
  induction pre with
  | nil =>
    intro post s hwf hq _ hpost
    rw [List.nil_append] at hq
    obtain ⟨hb, hne⟩ := queue_head_eq s PACE_CHANGE_MARKER post hwf hq
    have hq' : queueOf (SIG_OUTPUT_COMPARE1A c s).1 = post := by
      rw [queueOf_tick c s hwf hne, hq, List.drop_one, List.tail_cons]
    have hwf' := tick_WF c s hwf hne
    have hpace := tick_pace_of_marker c s hne hb
    have hcur : (SIG_OUTPUT_COMPARE1A c s).1.current_pace = s.next_pace := by
      rw [hpace.1, Nat.mod_eq_of_lt hwf.2.2.2]
    have harith : ([] : List Nat).length + 1 + post.length = post.length + 1 := by
      simp [Nat.add_comm]
    rw [harith, isr_run_succ]
    simp only [tick_obs c s hne, hb, eq_self_iff_true, if_true]
    rw [isr_run_no_marker c post (SIG_OUTPUT_COMPARE1A c s).1 hwf' hq' hpost, hcur]
    simp
  | cons b pre' ih =>
    intro post s hwf hq hpre hpost
    rw [List.cons_append] at hq
    obtain ⟨hb, hne⟩ := queue_head_eq s b (pre' ++ PACE_CHANGE_MARKER :: post) hwf hq
    have hbm : b ≠ PACE_CHANGE_MARKER := fun h => hpre (h ▸ List.mem_cons_self b pre')
    have hgm : s.step_buffer.getD s.step_buffer_tail 0 ≠ PACE_CHANGE_MARKER := by
      rw [hb]; exact hbm
    have hq' : queueOf (SIG_OUTPUT_COMPARE1A c s).1 = pre' ++ PACE_CHANGE_MARKER :: post := by
      rw [queueOf_tick c s hwf hne, hq, List.drop_one, List.tail_cons]
    have hwf' := tick_WF c s hwf hne
    have hpace := tick_pace_of_step c s hne hgm
    have hrec := ih post (SIG_OUTPUT_COMPARE1A c s).1 hwf' hq'
      (fun h => hpre (List.mem_cons_of_mem b h)) hpost
    have harith : (b :: pre').length + 1 + post.length =
        (pre'.length + 1 + post.length) + 1 := by
      simp only [List.length_cons]
      omega
    rw [harith, isr_run_succ]
    simp only [tick_obs c s hne, hb, if_neg hbm]
    rw [hrec, hpace.1, hpace.2]
    simp

/-- A concrete configuration used by the witnesses: step bits 0-2,
direction bits 3-5, limit bits 3-5, no inversion, 5 microsecond pulses,
round scale factors. -/
def cfg_w : Cfg :=
  { x_step_bit := 0
    y_step_bit := 1
    z_step_bit := 2
    x_direction_bit := 3
    y_direction_bit := 4
    z_direction_bit := 5
    x_limit_bit := 3
    y_limit_bit := 4
    z_limit_bit := 5
    stepping_invert_mask := 0
    step_pulse_microseconds := 5
    x_steps_per_mm := 400
    y_steps_per_mm := 200
    z_steps_per_mm := 100 }

/-- A running state whose buffer holds a step byte, a pace-change marker
and another step byte, with a pending pace of 7. -/
def run_state : SState :=
  { init_state with
    stepper_mode := STEPPER_MODE_RUNNING
    current_pace := 100
    next_pace := 7
    step_buffer := [5, 255, 9] ++ List.replicate 97 0
    step_buffer_head := 3 }

/-- A running state whose ring buffer is full (99 resident bytes). -/
def full_state : SState :=
  { init_state with
    stepper_mode := STEPPER_MODE_RUNNING
    current_pace := 20000
    step_buffer := List.replicate 100 2
    step_buffer_head := 99 }

/-- A running state with an empty buffer and no pending pace. -/
def ready_state : SState :=
  { init_state with
    stepper_mode := STEPPER_MODE_RUNNING
    current_pace := 20000 }

/-- A running state with a pace-change marker at the front of the buffer
and the matching pending pace. -/
def marker_state : SState :=
  { init_state with
    stepper_mode := STEPPER_MODE_RUNNING
    current_pace := 20000
    next_pace := 5000
    step_buffer := 255 :: List.replicate 99 0
    step_buffer_head := 1 }

/-- C8: while the stepper mode is not Running, st_buffer_step and
st_buffer_pace return immediately as no-ops: the whole module state — the
ring buffer contents, head, tail, next_pace and current_pace included — is
left unchanged, and no instruction or marker is enqueued. -/
theorem stopped_mode_noop (s : SState) (b microseconds : Nat)
    (h : s.stepper_mode ≠ STEPPER_MODE_RUNNING) :
    st_buffer_step s b = s ∧ st_buffer_pace s microseconds = s := by
  constructor
  · unfold st_buffer_step
    rw [if_pos h]
  · simp only [st_buffer_pace]
    rw [if_pos (Or.inr h)]

/-- Witness for C8 at the initial (Stopped) state. -/
theorem stopped_mode_noop_witness :
    init_state.stepper_mode ≠ STEPPER_MODE_RUNNING ∧
      (st_buffer_step init_state 5 = init_state ∧
        st_buffer_pace init_state 1000 = init_state) :=
  ⟨by decide, stopped_mode_noop init_state 5 1000 (by decide)⟩

/-- C10: config_pace_timer records the requested interval in current_pace
unconditionally — also in the clamped out-of-range branch — so a later
st_buffer_pace call with the same value is a no-op by the equality check. -/
theorem current_pace_records_request (s : SState) (microseconds : Nat)
    (h : microseconds < 2 ^ 32) :
    (config_pace_timer microseconds s).current_pace = microseconds ∧
      st_buffer_pace (config_pace_timer microseconds s) microseconds =
        config_pace_timer microseconds s := by
  have h1 : (config_pace_timer microseconds s).current_pace = microseconds := by
    simp only [config_pace_timer]
    omega
  refine ⟨h1, ?_⟩
  have hcond : (config_pace_timer microseconds s).current_pace =
      microseconds % 2 ^ 32 := by
    rw [h1]
    omega
  simp only [st_buffer_pace]
  rw [if_pos (Or.inl hcond)]

/-- Witness for C10 at an out-of-range interval (the clamp branch). -/
theorem current_pace_records_request_witness :
    4194304 < 2 ^ 32 ∧
      ((config_pace_timer 4194304 init_state).current_pace = 4194304 ∧
        st_buffer_pace (config_pace_timer 4194304 init_state) 4194304 =
          config_pace_timer 4194304 init_state) :=
  ⟨by decide, current_pace_records_request init_state 4194304 (by decide)⟩

/-- C3 counterexample: at microseconds = 4194304 the tick count 67108864
exceeds the largest representable count, the clamp branch fires (ceiling
65535 at prescaler index 4), and the configured period 1024 * 65535 =
67107840 ticks is strictly shorter than the requested 67108864 ticks — the
achieved cadence is faster than the one requested, contradicting the claim
that the clamped configuration is never faster than requested. -/
theorem pace_timer_clamp_faster_counterexample :
    0x3ffffff < 4194304 * TICKS_PER_MICROSECOND % 2 ^ 32 ∧
      (config_pace_timer 4194304 init_state).ocr1a = 65535 ∧
      prescale_factor (pace_timer_params (4194304 * TICKS_PER_MICROSECOND % 2 ^ 32)).1 *
          (pace_timer_params (4194304 * TICKS_PER_MICROSECOND % 2 ^ 32)).2 <
        4194304 * TICKS_PER_MICROSECOND % 2 ^ 32 := by
  decide

/-- C3 (amended): whenever the uint32 tick count microseconds * 16 mod 2^32
exceeds 0x3ffffff, config_pace_timer clamps to ceiling 65535 at the largest
prescaler (index 4, factor 1024) and never reports an error; the resulting
period 1024 * 65535 ticks is the slowest the timer can achieve, and it is
strictly shorter than the requested tick count, so the achieved cadence is
faster than the (unachievable) request. -/
theorem pace_timer_out_of_range_clamp (s : SState) (microseconds : Nat)
    (h : 0x3ffffff < microseconds * TICKS_PER_MICROSECOND % 2 ^ 32) :
    pace_timer_params (microseconds * TICKS_PER_MICROSECOND % 2 ^ 32) = (4, 65535) ∧
      (config_pace_timer microseconds s).ocr1a = 65535 ∧
      prescale_factor 4 * 65535 < microseconds * TICKS_PER_MICROSECOND % 2 ^ 32 := by
  have hp : pace_timer_params (microseconds * TICKS_PER_MICROSECOND % 2 ^ 32) =
      (4, 65535) := by
    unfold pace_timer_params
    rw [if_neg (by omega), if_neg (by omega), if_neg (by omega), if_neg (by omega),
      if_neg (by omega)]
  refine ⟨hp, ?_, ?_⟩
  · simp only [config_pace_timer, hp]
  · rw [show prescale_factor 4 = 1024 from rfl]
    omega

/-- Witness for C3 (amended) at microseconds = 4194305. -/
theorem pace_timer_out_of_range_clamp_witness :
    0x3ffffff < 4194305 * TICKS_PER_MICROSECOND % 2 ^ 32 ∧
      (pace_timer_params (4194305 * TICKS_PER_MICROSECOND % 2 ^ 32) = (4, 65535) ∧
        (config_pace_timer 4194305 init_state).ocr1a = 65535 ∧
        prescale_factor 4 * 65535 < 4194305 * TICKS_PER_MICROSECOND % 2 ^ 32) :=
  ⟨by decide, pace_timer_out_of_range_clamp init_state 4194305 (by decide)⟩

/-- C5 counterexample: from a running state with no pending pace, a
st_buffer_pace request for pace 0 (differing from the current pace 20000)
enqueues a pace-change marker — a request is then outstanding — while
leaving next_pace = 0, contradicting the claim that next_pace is non-zero
whenever a marker is enqueued but not yet processed. -/
theorem pace_zero_request_counterexample :
    queueOf (st_buffer_pace ready_state 0) = [PACE_CHANGE_MARKER] ∧
      (st_buffer_pace ready_state 0).next_pace = 0 := by
  decide

/-- C5 (amended): at most one pending pace value exists at a time, for
non-zero requested paces.  An attempt while next_pace is occupied leaves
the state unchanged (the C code sleeps until the slot frees); a request
from a ready running state with a non-zero new pace distinct from the
current one stores it in next_pace — leaving next_pace non-zero while the
request is outstanding — and enqueues exactly one pace-change marker; and
the executor clears next_pace to 0 when it processes a marker.  (A request
for pace 0 is excluded: it leaves next_pace = 0 while its marker is
outstanding, see the counterexample.) -/
theorem single_pending_pace (c : Cfg) (s t u : SState) (microseconds nu : Nat)
    (hbusy : s.next_pace ≠ 0)
    (hwt : WF t) (hrun : t.stepper_mode = STEPPER_MODE_RUNNING)
    (hne : t.current_pace ≠ microseconds % 2 ^ 32) (hfree : t.next_pace = 0)
    (hnf : ¬ isFull t) (hnz : microseconds % 2 ^ 32 ≠ 0)
    (hu1 : u.step_buffer_head ≠ u.step_buffer_tail)
    (hu2 : u.step_buffer.getD u.step_buffer_tail 0 = PACE_CHANGE_MARKER) :
    st_buffer_pace s nu = s ∧
      queueOf (st_buffer_pace t microseconds) = queueOf t ++ [PACE_CHANGE_MARKER] ∧
      (st_buffer_pace t microseconds).next_pace = microseconds % 2 ^ 32 ∧
      (st_buffer_pace t microseconds).next_pace ≠ 0 ∧
      (SIG_OUTPUT_COMPARE1A c u).1.next_pace = 0 := by
  have hpush := st_buffer_pace_push t microseconds hwt hrun hne hfree hnf
  refine ⟨st_buffer_pace_busy s nu hbusy, hpush.1, hpush.2, ?_,
    (tick_pace_of_marker c u hu1 hu2).2⟩
  rw [hpush.2]
  exact hnz

/-- Witness for C5 (amended): a busy state, a ready state taking a request
for pace 5000, and a state about to pop a marker. -/
theorem single_pending_pace_witness :
    marker_state.next_pace ≠ 0 ∧
      WF ready_state ∧
      ready_state.stepper_mode = STEPPER_MODE_RUNNING ∧
      ready_state.current_pace ≠ 5000 % 2 ^ 32 ∧
      ready_state.next_pace = 0 ∧
      ¬ isFull ready_state ∧
      5000 % 2 ^ 32 ≠ 0 ∧
      marker_state.step_buffer_head ≠ marker_state.step_buffer_tail ∧
      marker_state.step_buffer.getD marker_state.step_buffer_tail 0 = PACE_CHANGE_MARKER ∧
      (st_buffer_pace marker_state 123 = marker_state ∧
        queueOf (st_buffer_pace ready_state 5000) =
          queueOf ready_state ++ [PACE_CHANGE_MARKER] ∧
        (st_buffer_pace ready_state 5000).next_pace = 5000 % 2 ^ 32 ∧
        (st_buffer_pace ready_state 5000).next_pace ≠ 0 ∧
        (SIG_OUTPUT_COMPARE1A cfg_w marker_state).1.next_pace = 0) :=
  ⟨by decide, by decide, by decide, by decide, by decide, by decide, by decide, by decide,
    by decide,
    single_pending_pace cfg_w marker_state ready_state marker_state 5000 123 (by decide)
      (by decide) (by decide) (by decide) (by decide) (by decide) (by decide) (by decide)
      (by decide)⟩

/-- C4: the ring buffer keeps at most N-1 = 99 instructions resident; it
is empty exactly when head = tail and full exactly when advancing head by
one modulo N would equal tail; an append attempted on a full running
buffer changes nothing (neither the contents nor head); and once the
executor has consumed one instruction the buffer is no longer full, so the
append then goes through and lands at the back of the queue. -/
theorem ring_capacity_and_full_append (c : Cfg) (t s : SState) (b : Nat)
    (hwt : WF t) (hws : WF s) (hfull : isFull s)
    (hrun : s.stepper_mode = STEPPER_MODE_RUNNING) :
    bufCount t ≤ STEP_BUFFER_SIZE - 1 ∧
      (isEmpty t ↔ t.step_buffer_head = t.step_buffer_tail) ∧
      (isFull t ↔ (t.step_buffer_head + 1) % STEP_BUFFER_SIZE = t.step_buffer_tail) ∧
      st_buffer_step s b = s ∧
      ¬ isFull (SIG_OUTPUT_COMPARE1A c s).1 ∧
      queueOf (st_buffer_step (SIG_OUTPUT_COMPARE1A c s).1 b) =
        queueOf (SIG_OUTPUT_COMPARE1A c s).1 ++ [b % 256] := by
  obtain ⟨ht1, ht2, ht3, ht4⟩ := hwt
  have ht2' : t.step_buffer_head < 100 := ht2
  have ht3' : t.step_buffer_tail < 100 := ht3
  have hbc : bufCount s = 99 := hfull
  have hbc' : (s.step_buffer_head + 100 - s.step_buffer_tail) % 100 = 99 := hbc
  have hne : s.step_buffer_head ≠ s.step_buffer_tail := by omega
  have hcnt := bufCount_tick c s hws hne
  have hnotfull : bufCount (SIG_OUTPUT_COMPARE1A c s).1 ≠ STEP_BUFFER_SIZE - 1 := by
    rw [hcnt, hbc]
    decide
  refine ⟨?_, ?_, ?_, st_buffer_step_of_full s b hws hfull, hnotfull, ?_⟩
  · have h1 := bufCount_lt t
    omega
  · show bufCount t = 0 ↔ _
    unfold bufCount STEP_BUFFER_SIZE
    constructor <;> (intro hh; omega)
  · show bufCount t = STEP_BUFFER_SIZE - 1 ↔ _
    unfold bufCount STEP_BUFFER_SIZE
    constructor <;> (intro hh; omega)
  · exact (st_buffer_step_push (SIG_OUTPUT_COMPARE1A c s).1 b (tick_WF c s hws hne)
      (by rw [tick_mode c s hne]; exact hrun) hnotfull).1

/-- Witness for C4 at a concrete full running buffer. -/
theorem ring_capacity_and_full_append_witness :
    WF run_state ∧ WF full_state ∧ isFull full_state ∧
      full_state.stepper_mode = STEPPER_MODE_RUNNING ∧
      (bufCount run_state ≤ STEP_BUFFER_SIZE - 1 ∧
        (isEmpty run_state ↔ run_state.step_buffer_head = run_state.step_buffer_tail) ∧
        (isFull run_state ↔
          (run_state.step_buffer_head + 1) % STEP_BUFFER_SIZE = run_state.step_buffer_tail) ∧
        st_buffer_step full_state 7 = full_state ∧
        ¬ isFull (SIG_OUTPUT_COMPARE1A cfg_w full_state).1 ∧
        queueOf (st_buffer_step (SIG_OUTPUT_COMPARE1A cfg_w full_state).1 7) =
          queueOf (SIG_OUTPUT_COMPARE1A cfg_w full_state).1 ++ [7 % 256]) :=
  ⟨by decide, by decide, by decide, by decide,
    ring_capacity_and_full_append cfg_w run_state full_state 7 (by decide) (by decide)
      (by decide) (by decide)⟩

/-- C1: instructions are consumed in exactly the order they were enqueued,
and a pace-change marker takes effect only when it is popped.  An append
while Running with room puts the new byte at the back of the queue; and
when the queue consists of the instructions `pre`, then one marker, then
the instructions `post`, draining it executes every instruction of `pre`
under the old pace current_pace, then the marker (which emits no step),
then every instruction of `post` under the new pace next_pace. -/
theorem fifo_and_pace_marker_ordering (c : Cfg) (s : SState) (pre post : List Nat)
    (b : Nat) (hwf : WF s)
    (hq : queueOf s = pre ++ PACE_CHANGE_MARKER :: post)
    (hpre : PACE_CHANGE_MARKER ∉ pre) (hpost : PACE_CHANGE_MARKER ∉ post)
    (hrun : s.stepper_mode = STEPPER_MODE_RUNNING)
    (hnf : ¬ isFull s) :
    queueOf (st_buffer_step s b) = queueOf s ++ [b % 256] ∧
      (isr_run c (pre.length + 1 + post.length) s).2 =
        pre.map (fun x => (x, s.current_pace)) ++ post.map (fun x => (x, s.next_pace)) := by
  constructor
  · exact (st_buffer_step_push s b hwf hrun hnf).1
  · exact isr_run_scenario c pre post s hwf hq hpre hpost

/-- Witness for C1: the queue [5, marker, 9] with current pace 100 and
pending pace 7 executes 5 at pace 100 and 9 at pace 7, and an append while
running lands at the back. -/
theorem fifo_and_pace_marker_ordering_witness :
    WF run_state ∧
      queueOf run_state = [5] ++ PACE_CHANGE_MARKER :: [9] ∧
      PACE_CHANGE_MARKER ∉ [5] ∧ PACE_CHANGE_MARKER ∉ [9] ∧
      run_state.stepper_mode = STEPPER_MODE_RUNNING ∧
      ¬ isFull run_state ∧
      (queueOf (st_buffer_step run_state 3) = queueOf run_state ++ [3 % 256] ∧
        (isr_run cfg_w ([5].length + 1 + [9].length) run_state).2 =
          [5].map (fun x => (x, run_state.current_pace)) ++
            [9].map (fun x => (x, run_state.next_pace))) :=
  ⟨by decide, by decide, by decide, by decide, by decide, by decide,
    fifo_and_pace_marker_ordering cfg_w run_state [5] [9] 3 (by decide) (by decide)
      (by decide) (by decide) (by decide) (by decide)⟩

lemma pace_timer_params_bounds (t : Nat) (h : t ≤ 65535 * 1024) :
    smallest_prescaler t (prescale_factor (pace_timer_params t).1) ∧
      (pace_timer_params t).2 ≤ 65535 ∧
      prescale_factor (pace_timer_params t).1 * (pace_timer_params t).2 ≤ t ∧
      t < prescale_factor (pace_timer_params t).1 * (pace_timer_params t).2 +
        prescale_factor (pace_timer_params t).1 := by
  unfold pace_timer_params smallest_prescaler
  split_ifs with h1 h2 h3 h4 h5
  · simp only [show prescale_factor ((0 : Nat), t).1 = 1 from rfl,
      show ((0 : Nat), t).2 = t from rfl]
    refine ⟨⟨by decide, by omega, ?_⟩, by omega, by omega, by omega⟩
    intro q hq hlt
    simp only [List.mem_cons, List.not_mem_nil, or_false] at hq
    rcases hq with rfl | rfl | rfl | rfl | rfl <;> omega
  · simp only [show prescale_factor ((1 : Nat), t >>> 3).1 = 8 from rfl,
      Nat.shiftRight_eq_div_pow, show (2 : Nat) ^ 3 = 8 from rfl]
    refine ⟨⟨by decide, by omega, ?_⟩, by omega, by omega, by omega⟩
    intro q hq hlt
    simp only [List.mem_cons, List.not_mem_nil, or_false] at hq
    rcases hq with rfl | rfl | rfl | rfl | rfl <;> omega
  · simp only [show prescale_factor ((2 : Nat), t >>> 6).1 = 64 from rfl,
      Nat.shiftRight_eq_div_pow, show (2 : Nat) ^ 6 = 64 from rfl]
    refine ⟨⟨by decide, by omega, ?_⟩, by omega, by omega, by omega⟩
    intro q hq hlt
    simp only [List.mem_cons, List.not_mem_nil, or_false] at hq
    rcases hq with rfl | rfl | rfl | rfl | rfl <;> omega
  · simp only [show prescale_factor ((3 : Nat), t >>> 8).1 = 256 from rfl,
      Nat.shiftRight_eq_div_pow, show (2 : Nat) ^ 8 = 256 from rfl]
    refine ⟨⟨by decide, by omega, ?_⟩, by omega, by omega, by omega⟩
    intro q hq hlt
    simp only [List.mem_cons, List.not_mem_nil, or_false] at hq
    rcases hq with rfl | rfl | rfl | rfl | rfl <;> omega
  · simp only [show prescale_factor ((4 : Nat), t >>> 10).1 = 1024 from rfl,
      Nat.shiftRight_eq_div_pow, show (2 : Nat) ^ 10 = 1024 from rfl]
    refine ⟨⟨by decide, by omega, ?_⟩, by omega, by omega, by omega⟩
    intro q hq hlt
    simp only [List.mem_cons, List.not_mem_nil, or_false] at hq
    rcases hq with rfl | rfl | rfl | rfl | rfl <;> omega
  · omega

/-- C2: for every interval whose tick count microseconds * 16 is at most
65535 * 1024, config_pace_timer selects the smallest prescaler of the
ordered set {1, 8, 64, 256, 1024} that brings the tick count within the
16-bit counter range, writes the resulting ceiling (which fits in 16 bits)
to OCR1A, and the product prescaler * ceiling reproduces the requested
tick count to within one prescaled tick. -/
theorem pace_timer_prescaler_selection (s : SState) (microseconds : Nat)
    (h : microseconds * TICKS_PER_MICROSECOND ≤ 65535 * 1024) :
    (config_pace_timer microseconds s).ocr1a =
        (pace_timer_params (microseconds * TICKS_PER_MICROSECOND)).2 ∧
      smallest_prescaler (microseconds * TICKS_PER_MICROSECOND)
        (prescale_factor (pace_timer_params (microseconds * TICKS_PER_MICROSECOND)).1) ∧
      (pace_timer_params (microseconds * TICKS_PER_MICROSECOND)).2 ≤ 65535 ∧
      prescale_factor (pace_timer_params (microseconds * TICKS_PER_MICROSECOND)).1 *
          (pace_timer_params (microseconds * TICKS_PER_MICROSECOND)).2 ≤
        microseconds * TICKS_PER_MICROSECOND ∧
      microseconds * TICKS_PER_MICROSECOND <
        prescale_factor (pace_timer_params (microseconds * TICKS_PER_MICROSECOND)).1 *
            (pace_timer_params (microseconds * TICKS_PER_MICROSECOND)).2 +
          prescale_factor (pace_timer_params (microseconds * TICKS_PER_MICROSECOND)).1 := by
  have hmod : microseconds * TICKS_PER_MICROSECOND % 2 ^ 32 =
      microseconds * TICKS_PER_MICROSECOND := by
    apply Nat.mod_eq_of_lt
    omega
  have hb := pace_timer_params_bounds (microseconds * TICKS_PER_MICROSECOND) h
  refine ⟨?_, hb.1, hb.2.1, hb.2.2.1, hb.2.2.2⟩
  simp only [config_pace_timer, hmod]

/-- Witness for C2 at the spec §8 example: 20000 microseconds gives
320000 ticks, the 8x tier, ceiling 40000. -/
theorem pace_timer_prescaler_selection_witness :
    20000 * TICKS_PER_MICROSECOND ≤ 65535 * 1024 ∧
      ((config_pace_timer 20000 init_state).ocr1a =
          (pace_timer_params (20000 * TICKS_PER_MICROSECOND)).2 ∧
        smallest_prescaler (20000 * TICKS_PER_MICROSECOND)
          (prescale_factor (pace_timer_params (20000 * TICKS_PER_MICROSECOND)).1) ∧
        (pace_timer_params (20000 * TICKS_PER_MICROSECOND)).2 ≤ 65535 ∧
        prescale_factor (pace_timer_params (20000 * TICKS_PER_MICROSECOND)).1 *
            (pace_timer_params (20000 * TICKS_PER_MICROSECOND)).2 ≤
          20000 * TICKS_PER_MICROSECOND ∧
        20000 * TICKS_PER_MICROSECOND <
          prescale_factor (pace_timer_params (20000 * TICKS_PER_MICROSECOND)).1 *
              (pace_timer_params (20000 * TICKS_PER_MICROSECOND)).2 +
            prescale_factor (pace_timer_params (20000 * TICKS_PER_MICROSECOND)).1) :=
  ⟨by decide, pace_timer_prescaler_selection init_state 20000 (by decide)⟩

/-- C6: the reserved marker value 0xff does not collide with any legal
step instruction.  A legal instruction is a byte whose set bits lie within
STEP_MASK ||| DIRECTION_MASK; those masks are built from six single-bit
positions, so they cannot cover all eight bits of 0xff, and every legal
instruction therefore differs from PACE_CHANGE_MARKER. -/
theorem marker_distinct_from_step_instructions (c : Cfg) (instr : Nat)
    (h : instr &&& (STEP_MASK c ||| DIRECTION_MASK c) = instr) :
    instr ≠ PACE_CHANGE_MARKER := by
  intro hEq
  rw [hEq] at h
  have hM : ∀ i, i < 8 → Nat.testBit (STEP_MASK c ||| DIRECTION_MASK c) i = true := by
    intro i hi
    have hbit := congrArg (fun n => Nat.testBit n i) h
    simp only [Nat.testBit_and] at hbit
    have hp : Nat.testBit PACE_CHANGE_MARKER i = true := by
      rw [show PACE_CHANGE_MARKER = 2 ^ 8 - 1 from rfl, Nat.testBit_two_pow_sub_one]
      simp [hi]
    rw [hp] at hbit
    simpa using hbit
  have hsub : Finset.range 8 ⊆
      ({c.x_step_bit, c.y_step_bit, c.z_step_bit,
        c.x_direction_bit, c.y_direction_bit, c.z_direction_bit} : Finset Nat) := by
    intro i hi
    rw [Finset.mem_range] at hi
    have hMi := hM i hi
    unfold STEP_MASK DIRECTION_MASK at hMi
    simp only [Nat.testBit_or, Nat.shiftLeft_eq, one_mul, Nat.testBit_two_pow,
      Bool.or_eq_true, decide_eq_true_eq] at hMi
    simp only [Finset.mem_insert, Finset.mem_singleton]
    tauto
  have hcard := Finset.card_le_card hsub
  rw [Finset.card_range] at hcard
  have k5 : ({c.z_direction_bit} : Finset Nat).card = 1 := Finset.card_singleton _
  have k4 := Finset.card_insert_le c.y_direction_bit ({c.z_direction_bit} : Finset Nat)
  have k3 := Finset.card_insert_le c.x_direction_bit
    ({c.y_direction_bit, c.z_direction_bit} : Finset Nat)
  have k2 := Finset.card_insert_le c.z_step_bit
    ({c.x_direction_bit, c.y_direction_bit, c.z_direction_bit} : Finset Nat)
  have k1 := Finset.card_insert_le c.y_step_bit
    ({c.z_step_bit, c.x_direction_bit, c.y_direction_bit, c.z_direction_bit} : Finset Nat)
  have k0 := Finset.card_insert_le c.x_step_bit
    ({c.y_step_bit, c.z_step_bit, c.x_direction_bit, c.y_direction_bit,
      c.z_direction_bit} : Finset Nat)
  omega

/-- Witness for C6: instruction 42 lies within the step and direction
masks of the concrete configuration and differs from the marker. -/
theorem marker_distinct_from_step_instructions_witness :
    42 &&& (STEP_MASK cfg_w ||| DIRECTION_MASK cfg_w) = 42 ∧ 42 ≠ PACE_CHANGE_MARKER :=
  ⟨by decide, marker_distinct_from_step_instructions cfg_w 42 (by decide)⟩

/-- C7: the pulse-reset handler deasserts only the step bits: at every bit
position inside STEP_MASK the new stepping-port value equals the invert
mask (the inactive level), and at every position outside STEP_MASK —
direction bits included — it equals the old port value. -/
theorem pulse_reset_preserves_non_step_bits (c : Cfg) (port i : Nat)
    (hport : port < 256)
    (hx : c.x_step_bit < 8) (hy : c.y_step_bit < 8) (hz : c.z_step_bit < 8) :
    Nat.testBit (SIG_OVERFLOW2 c port) i =
      cond (Nat.testBit (STEP_MASK c) i)
        (Nat.testBit (c.stepping_invert_mask % 256) i) (Nat.testBit port i) := by
  have hmask : STEP_MASK c < 2 ^ 8 := by
    unfold STEP_MASK
    have e1 : (1 : Nat) <<< c.x_step_bit < 2 ^ 8 := by
      rw [Nat.shiftLeft_eq, one_mul]
      exact Nat.pow_lt_pow_right one_lt_two hx
    have e2 : (1 : Nat) <<< c.y_step_bit < 2 ^ 8 := by
      rw [Nat.shiftLeft_eq, one_mul]
      exact Nat.pow_lt_pow_right one_lt_two hy
    have e3 : (1 : Nat) <<< c.z_step_bit < 2 ^ 8 := by
      rw [Nat.shiftLeft_eq, one_mul]
      exact Nat.pow_lt_pow_right one_lt_two hz
    exact Nat.or_lt_two_pow (Nat.or_lt_two_pow e1 e2) e3
  unfold SIG_OVERFLOW2
  simp only [Nat.testBit_or, Nat.testBit_and, Nat.testBit_xor]
  by_cases hb : Nat.testBit (STEP_MASK c) i
  · have hi : i < 8 := by
      by_contra hge
      have hfalse : Nat.testBit (STEP_MASK c) i = false := by
        apply Nat.testBit_lt_two_pow
        calc STEP_MASK c < 2 ^ 8 := hmask
          _ ≤ 2 ^ i := Nat.pow_le_pow_right (by norm_num) (by omega)
      rw [hfalse] at hb
      exact Bool.false_ne_true hb
    have h255 : Nat.testBit 255 i = true := by
      rw [show (255 : Nat) = 2 ^ 8 - 1 from rfl, Nat.testBit_two_pow_sub_one]
      simp [hi]
    rw [hb, h255]
    simp
  · have hb' : Nat.testBit (STEP_MASK c) i = false := by simpa using hb
    rw [hb']
    simp only [Bool.and_false, Bool.or_false, Bool.xor_false, Bool.cond_false]
    by_cases hi : i < 8
    · have h255 : Nat.testBit 255 i = true := by
        rw [show (255 : Nat) = 2 ^ 8 - 1 from rfl, Nat.testBit_two_pow_sub_one]
        simp [hi]
      simp [h255]
    · have hp : Nat.testBit port i = false := by
        apply Nat.testBit_lt_two_pow
        calc port < 256 := hport
          _ = 2 ^ 8 := by norm_num
          _ ≤ 2 ^ i := Nat.pow_le_pow_right (by norm_num) (by omega)
      have h255 : Nat.testBit 255 i = false := by
        apply Nat.testBit_lt_two_pow
        calc (255 : Nat) < 2 ^ 8 := by norm_num
          _ ≤ 2 ^ i := Nat.pow_le_pow_right (by norm_num) (by omega)
      simp [hp, h255]

/-- Witness for C7 at a direction-bit position: bit 3 (a direction bit,
outside STEP_MASK) of the stepping port survives the pulse reset. -/
theorem pulse_reset_preserves_non_step_bits_witness :
    170 < 256 ∧ cfg_w.x_step_bit < 8 ∧ cfg_w.y_step_bit < 8 ∧ cfg_w.z_step_bit < 8 ∧
      Nat.testBit (SIG_OVERFLOW2 cfg_w 170) 3 =
        cond (Nat.testBit (STEP_MASK cfg_w) 3)
          (Nat.testBit (cfg_w.stepping_invert_mask % 256) 3) (Nat.testBit 170 3) :=
  ⟨by decide, by decide, by decide, by decide,
    pulse_reset_preserves_non_step_bits cfg_w 170 3 (by decide) (by decide) (by decide)
      (by decide)⟩

lemma abs_cround_sub (x : ℚ) : |(cround x : ℚ) - x| ≤ 1 / 2 := by
  unfold cround
  split_ifs with h
  · rw [abs_sub_comm]
    exact abs_sub_round x
  · push_cast
    rw [show -(round (-x) : ℚ) - x = -((round (-x) : ℚ) - -x) by ring, abs_neg,
      abs_sub_comm]
    exact abs_sub_round (-x)

/-- C9: every axis value other than X_AXIS, Y_AXIS, Z_AXIS makes the
helpers return a neutral zero — st_millimeters_to_steps returns 0 for any
distance, check_limit_switch returns 0, st_bit_for_stepper returns 0 —
while a valid axis makes st_millimeters_to_steps return the distance times
that axis's steps-per-millimeter rounded to the nearest integer (within
one half). -/
theorem invalid_axis_neutral (c : Cfg) (limit_port : Nat) (millimeters : ℚ)
    (axis : Int) (hax : axis ≠ X_AXIS) (hay : axis ≠ Y_AXIS) (haz : axis ≠ Z_AXIS) :
    st_millimeters_to_steps c millimeters axis = 0 ∧
      check_limit_switch c limit_port axis = 0 ∧
      st_bit_for_stepper c axis = 0 ∧
      st_millimeters_to_steps c millimeters X_AXIS =
        cround (millimeters * c.x_steps_per_mm) ∧
      st_millimeters_to_steps c millimeters Y_AXIS =
        cround (millimeters * c.y_steps_per_mm) ∧
      st_millimeters_to_steps c millimeters Z_AXIS =
        cround (millimeters * c.z_steps_per_mm) ∧
      |(st_millimeters_to_steps c millimeters X_AXIS : ℚ) -
        millimeters * c.x_steps_per_mm| ≤ 1 / 2 ∧
      |(st_millimeters_to_steps c millimeters Y_AXIS : ℚ) -
        millimeters * c.y_steps_per_mm| ≤ 1 / 2 ∧
      |(st_millimeters_to_steps c millimeters Z_AXIS : ℚ) -
        millimeters * c.z_steps_per_mm| ≤ 1 / 2 := by
  have hxeq : st_millimeters_to_steps c millimeters X_AXIS =
      cround (millimeters * c.x_steps_per_mm) := by
    simp [st_millimeters_to_steps]
  have hyeq : st_millimeters_to_steps c millimeters Y_AXIS =
      cround (millimeters * c.y_steps_per_mm) := by
    simp [st_millimeters_to_steps, X_AXIS, Y_AXIS]
  have hzeq : st_millimeters_to_steps c millimeters Z_AXIS =
      cround (millimeters * c.z_steps_per_mm) := by
    simp [st_millimeters_to_steps, X_AXIS, Y_AXIS, Z_AXIS]
  refine ⟨?_, ?_, ?_, hxeq, hyeq, hzeq, ?_, ?_, ?_⟩
  · simp [st_millimeters_to_steps, hax, hay, haz]
  · simp [check_limit_switch, hax, hay, haz]
  · simp [st_bit_for_stepper, hax, hay, haz]
  · rw [hxeq]
    exact abs_cround_sub _
  · rw [hyeq]
    exact abs_cround_sub _
  · rw [hzeq]
    exact abs_cround_sub _

/-- Witness for C9 at the invalid axis 7 and distance 7/2 millimeters. -/
theorem invalid_axis_neutral_witness :
    (7 : Int) ≠ X_AXIS ∧ (7 : Int) ≠ Y_AXIS ∧ (7 : Int) ≠ Z_AXIS ∧
      (st_millimeters_to_steps cfg_w (7 / 2) 7 = 0 ∧
        check_limit_switch cfg_w 6 7 = 0 ∧
        st_bit_for_stepper cfg_w 7 = 0 ∧
        st_millimeters_to_steps cfg_w (7 / 2) X_AXIS =
          cround (7 / 2 * cfg_w.x_steps_per_mm) ∧
        st_millimeters_to_steps cfg_w (7 / 2) Y_AXIS =
          cround (7 / 2 * cfg_w.y_steps_per_mm) ∧
        st_millimeters_to_steps cfg_w (7 / 2) Z_AXIS =
          cround (7 / 2 * cfg_w.z_steps_per_mm) ∧
        |(st_millimeters_to_steps cfg_w (7 / 2) X_AXIS : ℚ) -
          7 / 2 * cfg_w.x_steps_per_mm| ≤ 1 / 2 ∧
        |(st_millimeters_to_steps cfg_w (7 / 2) Y_AXIS : ℚ) -
          7 / 2 * cfg_w.y_steps_per_mm| ≤ 1 / 2 ∧
        |(st_millimeters_to_steps cfg_w (7 / 2) Z_AXIS : ℚ) -
          7 / 2 * cfg_w.z_steps_per_mm| ≤ 1 / 2) :=
  ⟨by decide, by decide, by decide,
    invalid_axis_neutral cfg_w 6 (7 / 2) 7 (by decide) (by decide) (by decide)⟩
